import Mathlib

/-!
Verification of the loaner-item kiosk (`src/script.js`).

The embedding translates the in-memory kiosk logic: the item database
`mockItemDB`, the transaction resolver `processScan` (script.js lines 63-112)
and the scan decoder `handleGlobalKeyDown` (script.js lines 140-160).
JavaScript's in-place mutation of the item found by `Array.prototype.find`
is modelled by `updateFirst`, which rewrites exactly the first list element
satisfying the predicate.
-/

/-- An inventory item, as in `mockItemDB` and the `items` SQL table:
`status` is the string "Available" or "Checked Out"; the holder fields
`checkedOutBy` / `checkedOutByName` are nullable strings. -/
structure Item where
  id : String
  name : String
  status : String
  checkedOutBy : Option String
  checkedOutByName : Option String
deriving DecidableEq, Repr

/-- The initial inventory (script.js lines 2-6). -/
def mockItemDB : List Item :=
  [ { id := "laptop1", name := "Loaner Laptop 1", status := "Available",
      checkedOutBy := none, checkedOutByName := none },
    { id := "laptop2", name := "Loaner Laptop 2", status := "Checked Out",
      checkedOutBy := some "987654321", checkedOutByName := some "Jane Doe" },
    { id := "projector1", name := "Portable Projector", status := "Available",
      checkedOutBy := none, checkedOutByName := none } ]

/-- The mutable state read by `processScan`: the item database and the
currently selected item id (`selectedItemId`, null when nothing selected). -/
structure ScanState where
  db : List Item
  selectedItemId : Option String
deriving DecidableEq, Repr

/-- Message kind passed to `showMessage` (script.js line 117). -/
inductive MsgType where
  | success
  | error
deriving DecidableEq, Repr

/-- One row of the append-only `checkout_log` table (timestamp and the
autoincrement key omitted): item, action ("Checked Out" or "Returned"),
and user. -/
structure LogEntry where
  itemId : String
  itemName : String
  action : String
  userId : String
  userName : String
deriving DecidableEq, Repr

/-- JavaScript `s.slice(-4)`: the last four characters of `s` (all of `s`
when it is shorter than four characters). -/
def sliceLast4 (s : String) : String :=
  ⟨s.data.drop (s.data.length - 4)⟩

/-- The mock user-name lookup (script.js line 72):
`` `User (${scannedId.slice(-4)})` ``. -/
def mockUserName (scannedId : String) : String :=
  "User (" ++ sliceLast4 scannedId ++ ")"

/-- Rewrites the first element of the list satisfying `p` with `f`, leaving
every other element unchanged.  This models the JavaScript pattern
`const it = arr.find(p); it.field = v;`, which mutates the found element
in place inside the array. -/
def updateFirst (p : Item → Bool) (f : Item → Item) : List Item → List Item
  | [] => []
  | x :: xs => if p x then f x :: xs else x :: updateFirst p f xs

/-- The observable result of one `processScan` call: the item database and
selection after the call, the message shown by `showMessage` with its kind,
and `renders`, the number of `renderItems` calls made during the call.

The `log` field is not computed by script.js itself.  Modelled from the
spec: the server-side code that inserts into the `checkout_log` table is
not under src/ (only the table schema is); per the spec, on success only,
exactly one LogEntry recording the transaction is appended. -/
structure ProcessResult where
  db : List Item
  selectedItemId : Option String
  message : String
  msgType : MsgType
  renders : Nat
  log : List LogEntry
deriving DecidableEq, Repr

/-- The transaction resolver `processScan` (script.js lines 63-112).

* A falsy (empty) `scannedId` is rejected at once (lines 64-67): the
  function returns before the cleanup block, so the selection is kept and
  `renderItems` is not called.
* Otherwise it first looks for an item whose `checkedOutBy` equals the
  scanned id (line 75); if found this is a return (lines 77-83).
* Else, if an item is selected and still "Available", this is a checkout
  (lines 85-94); a selected item that is missing or not "Available" is
  rejected (lines 95-97).
* Else the no-selection error is shown (lines 99-102).
* Every non-early-return path ends with `clearSelection()` and one
  `renderItems()` call (lines 104-106). -/
def processScan (scannedId : String) (st : ScanState) : ProcessResult :=
  if scannedId = "" then
    { db := st.db, selectedItemId := st.selectedItemId,
      message := "Scan failed. Please try again.", msgType := .error,
      renders := 0, log := [] }
  else
    let userName := mockUserName scannedId
    match st.db.find? (fun item => item.checkedOutBy == some scannedId) with
    | some itemToReturn =>
      { db := updateFirst (fun item => item.checkedOutBy == some scannedId)
          (fun item =>
            { item with
              status := "Available",
              checkedOutBy := none,
              checkedOutByName := none }) st.db,
        selectedItemId := none,
        message := "Thank you, " ++ userName ++ ". Item \"" ++
          itemToReturn.name ++ "\" has been returned.",
        msgType := .success,
        renders := 1,
        log := [ { itemId := itemToReturn.id, itemName := itemToReturn.name,
                   action := "Returned", userId := scannedId,
                   userName := userName } ] }
    | none =>
      match st.selectedItemId with
      | some selId =>
        match st.db.find? (fun item => item.id == selId) with
        | some itemToCheckout =>
          if itemToCheckout.status = "Available" then
            { db := updateFirst (fun item => item.id == selId)
                (fun item =>
                  { item with
                    status := "Checked Out",
                    checkedOutBy := some scannedId,
                    checkedOutByName := some userName }) st.db,
              selectedItemId := none,
              message := "Thank you, " ++ userName ++ ". You have checked out \"" ++
                itemToCheckout.name ++ "\".",
              msgType := .success,
              renders := 1,
              log := [ { itemId := itemToCheckout.id,
                         itemName := itemToCheckout.name,
                         action := "Checked Out", userId := scannedId,
                         userName := userName } ] }
          else
            { db := st.db, selectedItemId := none,
              message := "That item is no longer available. Please select another.",
              msgType := .error, renders := 1, log := [] }
        | none =>
          { db := st.db, selectedItemId := none,
            message := "That item is no longer available. Please select another.",
            msgType := .error, renders := 1, log := [] }
      | none =>
        { db := st.db, selectedItemId := none,
          message := "Please select an available item *before* scanning your ID to check out.",
          msgType := .error, renders := 1, log := [] }

/-- One resolver call viewed as a transition on the item database: the
scanned id together with whatever selection was in effect when the scan
resolved. -/
def scanStep (db : List Item) (ev : String × Option String) : List Item :=
  (processScan ev.1 { db := db, selectedItemId := ev.2 }).db

/-- The item database after a sequence of resolver calls starting from the
initial inventory. -/
def runScans (events : List (String × Option String)) : List Item :=
  events.foldl scanStep mockItemDB

/-- The item invariant of the spec: status is "Checked Out" iff both holder
fields are present, and "Available" iff both are null. -/
def itemInv (it : Item) : Bool :=
  (decide (it.status = "Checked Out") == (it.checkedOutBy.isSome && it.checkedOutByName.isSome)) &&
  (decide (it.status = "Available") == (it.checkedOutBy.isNone && it.checkedOutByName.isNone))

/-- The status of the item with id `x`: the status of the first item in the
database whose `id` equals `x`, or `none` when no such item exists. -/
def statusOf (db : List Item) (x : String) : Option String :=
  (db.find? (fun it => it.id == x)).map (fun it => it.status)

/-- The item database after the first `n` resolver calls of the event
sequence `evs`, starting from the initial inventory. -/
def dbAt (evs : List (String × Option String)) (n : Nat) : List Item :=
  runScans (evs.take n)

/-- The log entries appended by call number `n` of the event sequence
(empty when `n` is out of range). -/
def callTx (evs : List (String × Option String)) (n : Nat) : List LogEntry :=
  match evs[n]? with
  | some e => (processScan e.1 { db := dbAt evs n, selectedItemId := e.2 }).log
  | none => []

/-- Call `n` of the sequence performs a successful checkout of item `x`. -/
def checksOut (evs : List (String × Option String)) (n : Nat) (x : String) : Bool :=
  (callTx evs n).any (fun l => l.action == "Checked Out" && l.itemId == x)

/-- Call `n` of the sequence performs a successful return of item `x`. -/
def returnsItem (evs : List (String × Option String)) (n : Nat) (x : String) : Bool :=
  (callTx evs n).any (fun l => l.action == "Returned" && l.itemId == x)

/-- The item database and cumulative transaction log after a sequence of
resolver calls starting from the initial inventory and an empty log: each
call appends its `log` entries to the end of the running log. -/
def runLog (events : List (String × Option String)) : List Item × List LogEntry :=
  events.foldl
    (fun acc ev =>
      ((processScan ev.1 { db := acc.1, selectedItemId := ev.2 }).db,
        acc.2 ++ (processScan ev.1 { db := acc.1, selectedItemId := ev.2 }).log))
    (mockItemDB, [])

/-- A keydown event as seen by `handleGlobalKeyDown`: the `key` string and
the Ctrl/Meta modifier flags. -/
structure KeyEvent where
  key : String
  ctrlKey : Bool
  metaKey : Bool
deriving DecidableEq, Repr

/-- The scan decoder's state: the accumulating `scanBuffer`, and `emitted`,
the list of identifiers passed to `processScan` so far, in order. -/
structure DecoderState where
  scanBuffer : String
  emitted : List String
deriving DecidableEq, Repr

/-- The keydown handler `handleGlobalKeyDown` (script.js lines 140-160):
on Enter, a non-empty buffer is emitted as one scan and the buffer is
cleared; a single-character key with no Ctrl/Meta modifier is appended to
the buffer; every other key leaves the buffer unchanged. -/
def handleGlobalKeyDown (event : KeyEvent) (st : DecoderState) : DecoderState :=
  if event.key = "Enter" then
    if st.scanBuffer.length > 0 then
      { scanBuffer := "", emitted := st.emitted ++ [st.scanBuffer] }
    else
      { st with scanBuffer := "" }
  else if event.key.length == 1 && !event.ctrlKey && !event.metaKey then
    { st with scanBuffer := st.scanBuffer ++ event.key }
  else
    st

/-- The watchdog callback (script.js lines 157-159): when the 100ms timer
fires, the buffer is discarded. -/
def scanTimerFire (st : DecoderState) : DecoderState :=
  { st with scanBuffer := "" }

/-- An event consumed by the decoder: either a keydown, or the firing of
the inactivity watchdog (which can only happen when more than 100ms pass
with no keydown, since every keydown restarts the timer). -/
inductive DecoderEvent where
  | keydown (e : KeyEvent)
  | timeout
deriving DecidableEq, Repr

/-- One decoder transition. -/
def decodeStep (ev : DecoderEvent) (st : DecoderState) : DecoderState :=
  match ev with
  | .keydown e => handleGlobalKeyDown e st
  | .timeout => scanTimerFire st

/-- Runs the decoder over a sequence of events. -/
def decodeRun (st : DecoderState) (evs : List DecoderEvent) : DecoderState :=
  evs.foldl (fun s e => decodeStep e s) st

/-- Concatenation of a list of key strings, in arrival order. -/
def concatKeys (l : List String) : String :=
  l.foldl (fun a c => a ++ c) ""

/-- An inventory state whose single item is held by the empty user id. -/
def ghostItem : Item :=
  { id := "ghost", name := "Ghost", status := "Checked Out",
    checkedOutBy := some "", checkedOutByName := some "Nobody" }

/-! ### Helper lemmas about `updateFirst`, `find?` and the trace -/

theorem mem_updateFirst {p : Item → Bool} {f : Item → Item} {l : List Item} {x : Item}
    (h : x ∈ updateFirst p f l) : x ∈ l ∨ ∃ y, y ∈ l ∧ x = f y := by
  induction l with
  | nil => simp [updateFirst] at h
  | cons a as ih =>
    by_cases hp : p a
    · simp only [updateFirst, if_pos hp, List.mem_cons] at h
      rcases h with h | h
      · exact Or.inr ⟨a, List.mem_cons_self a as, h⟩
      · exact Or.inl (List.mem_cons_of_mem _ h)
    · simp only [updateFirst, if_neg hp, List.mem_cons] at h
      rcases h with h | h
      · exact Or.inl (h ▸ List.mem_cons_self a as)
      · rcases ih h with h' | ⟨y, hy, hxy⟩
        · exact Or.inl (List.mem_cons_of_mem _ h')
        · exact Or.inr ⟨y, List.mem_cons_of_mem _ hy, hxy⟩

theorem updateFirst_getElem (p : Item → Bool) (f : Item → Item) (l : List Item) (it : Item)
    (h : l.find? p = some it) :
    ∃ i : Nat, l[i]? = some it ∧
      (∀ (j : Nat) (y : Item), j < i → l[j]? = some y → p y = false) ∧
      (updateFirst p f l)[i]? = some (f it) ∧
      (∀ j : Nat, j ≠ i → (updateFirst p f l)[j]? = l[j]?) := by
  induction l with
  | nil => simp at h
  | cons a as ih =>
    by_cases hp : p a
    · rw [List.find?_cons_of_pos _ hp, Option.some_inj] at h
      subst h
      refine ⟨0, List.getElem?_cons_zero, ?_, ?_, ?_⟩
      · intro j y hj
        exact absurd hj (Nat.not_lt_zero j)
      · simp [updateFirst, if_pos hp]
      · intro j hj
        match j with
        | 0 => exact absurd rfl hj
        | k + 1 => simp [updateFirst, if_pos hp]
    · rw [List.find?_cons_of_neg _ (by simpa using hp)] at h
      rcases ih h with ⟨i, h1, h2, h3, h4⟩
      refine ⟨i + 1, by simpa using h1, ?_, ?_, ?_⟩
      · intro j y hj hy
        match j with
        | 0 =>
          simp only [List.getElem?_cons_zero, Option.some_inj] at hy
          subst hy
          exact Bool.eq_false_iff.mpr hp
        | k + 1 =>
          simp only [List.getElem?_cons_succ] at hy
          exact h2 k y (by omega) hy
      · simpa [updateFirst, if_neg hp] using h3
      · intro j hj
        match j with
        | 0 => simp [updateFirst, if_neg hp]
        | k + 1 =>
          simp only [updateFirst, if_neg hp, List.getElem?_cons_succ]
          exact h4 k (by omega)

theorem find?_updateFirst (p : Item → Bool) (f : Item → Item) (l : List Item) (it : Item)
    (h : l.find? p = some it) (hf : p (f it) = true) :
    (updateFirst p f l).find? p = some (f it) := by
  induction l with
  | nil => simp at h
  | cons a as ih =>
    by_cases hp : p a
    · rw [List.find?_cons_of_pos _ hp, Option.some_inj] at h
      subst h
      simp [updateFirst, if_pos hp, List.find?_cons_of_pos _ hf]
    · rw [List.find?_cons_of_neg _ (by simpa using hp)] at h
      simp only [updateFirst, if_neg hp]
      rw [List.find?_cons_of_neg _ (by simpa using hp)]
      exact ih h

theorem statusOf_updateFirst_ne (p : Item → Bool) (f : Item → Item) (l : List Item) (x : String)
    (hid : ∀ y, (f y).id = y.id)
    (h : ∀ it, l.find? p = some it → it.id ≠ x) :
    statusOf (updateFirst p f l) x = statusOf l x := by
  induction l with
  | nil => rfl
  | cons a as ih =>
    by_cases hp : p a
    · have hax : a.id ≠ x := h a (List.find?_cons_of_pos _ hp)
      have hq : ((f a).id == x) = false := by
        rw [hid a]
        exact beq_eq_false_iff_ne.mpr hax
      have hq' : (a.id == x) = false := beq_eq_false_iff_ne.mpr hax
      simp only [updateFirst, if_pos hp, statusOf]
      rw [List.find?_cons_of_neg as (by simp [hq]), List.find?_cons_of_neg as (by simp [hq'])]
    · simp only [updateFirst, if_neg hp, statusOf]
      by_cases hax : (a.id == x) = true
      · rw [List.find?_cons_of_pos (updateFirst p f as) hax, List.find?_cons_of_pos as hax]
      · rw [List.find?_cons_of_neg (updateFirst p f as) (by simpa using hax),
            List.find?_cons_of_neg as (by simpa using hax)]
        have := ih (fun it hit => h it (by
          rw [List.find?_cons_of_neg _ (by simpa using hp)]
          exact hit))
        simpa [statusOf] using this

theorem dbAt_succ (evs : List (String × Option String)) (n : Nat) :
    dbAt evs (n + 1) =
      match evs[n]? with
      | some e => scanStep (dbAt evs n) e
      | none => dbAt evs n := by
  unfold dbAt runScans
  rw [List.take_succ]
  cases h : evs[n]? with
  | none => simp
  | some e => simp [List.foldl_append]

/-- Every `processScan` call either leaves the database unchanged, clears
the holder of the first item matched by some predicate (a return), or
checks out the first item matched by some predicate to the scanned id. -/
theorem processScan_db_cases (id : String) (st : ScanState) :
    (processScan id st).db = st.db ∨
    (∃ p, (processScan id st).db =
      updateFirst p
        (fun item =>
          { item with
            status := "Available",
            checkedOutBy := none,
            checkedOutByName := none }) st.db) ∨
    (∃ p u, (processScan id st).db =
      updateFirst p
        (fun item =>
          { item with
            status := "Checked Out",
            checkedOutBy := some id,
            checkedOutByName := some u }) st.db) := by
  by_cases hid : id = ""
  · left
    simp [processScan, hid]
  · cases hf1 : st.db.find? (fun item => item.checkedOutBy == some id) with
    | some itR =>
      right; left
      refine ⟨fun item => item.checkedOutBy == some id, ?_⟩
      simp [processScan, hid, hf1]
    | none =>
      cases hsel : st.selectedItemId with
      | none =>
        left
        simp [processScan, hid, hf1, hsel]
      | some selId =>
        cases hf2 : st.db.find? (fun item => item.id == selId) with
        | none =>
          left
          simp [processScan, hid, hf1, hsel, hf2]
        | some itc =>
          by_cases hav : itc.status = "Available"
          · right; right
            refine ⟨fun item => item.id == selId, mockUserName id, ?_⟩
            simp [processScan, hid, hf1, hsel, hf2, hav]
          · left
            simp [processScan, hid, hf1, hsel, hf2, hav]

theorem itemInv_cleared (y : Item) :
    itemInv
      { y with
        status := "Available",
        checkedOutBy := none,
        checkedOutByName := none } = true := rfl

theorem itemInv_checkedOut (y : Item) (id u : String) :
    itemInv
      { y with
        status := "Checked Out",
        checkedOutBy := some id,
        checkedOutByName := some u } = true := rfl

theorem itemInv_scanStep (db : List Item) (ev : String × Option String)
    (h : ∀ it ∈ db, itemInv it = true) :
    ∀ it ∈ scanStep db ev, itemInv it = true := by
  intro it hit
  rcases processScan_db_cases ev.1 { db := db, selectedItemId := ev.2 } with
    hc | ⟨p, hc⟩ | ⟨p, u, hc⟩
  · rw [scanStep, hc] at hit
    exact h it hit
  · rw [scanStep, hc] at hit
    rcases mem_updateFirst hit with hm | ⟨y, hy, rfl⟩
    · exact h it hm
    · exact itemInv_cleared y
  · rw [scanStep, hc] at hit
    rcases mem_updateFirst hit with hm | ⟨y, hy, rfl⟩
    · exact h it hm
    · exact itemInv_checkedOut y ev.1 u

/-- C1: starting from the initial inventory, after any sequence of
`processScan` resolutions every item's status is "Checked Out" exactly when
its holder fields are present, and "Available" exactly when they are null. -/
theorem c1_status_holder_invariant (evs : List (String × Option String)) :
    ∀ it ∈ runScans evs, itemInv it = true := by
  have main : ∀ (l : List (String × Option String)) (db : List Item),
      (∀ it ∈ db, itemInv it = true) → ∀ it ∈ l.foldl scanStep db, itemInv it = true := by
    intro l
    induction l with
    | nil =>
      intro db h
      simpa using h
    | cons e es ih =>
      intro db h
      exact ih _ (itemInv_scanStep db e h)
  exact main evs mockItemDB (by decide)

/-- Witness for C1 at the empty scan sequence and the first initial item. -/
theorem c1_status_holder_invariant_witness :
    itemInv
      { id := "laptop1", name := "Loaner Laptop 1", status := "Available",
        checkedOutBy := none, checkedOutByName := none } = true :=
  c1_status_holder_invariant []
    { id := "laptop1", name := "Loaner Laptop 1", status := "Available",
      checkedOutBy := none, checkedOutByName := none } (by decide)

/-! ### Branch equations for `processScan` -/

theorem processScan_empty_eq (st : ScanState) :
    processScan "" st =
      { db := st.db,
        selectedItemId := st.selectedItemId,
        message := "Scan failed. Please try again.",
        msgType := .error,
        renders := 0,
        log := [] } := rfl

theorem processScan_return_eq (id : String) (st : ScanState) (itR : Item)
    (hid : id ≠ "")
    (hf : st.db.find? (fun item => item.checkedOutBy == some id) = some itR) :
    processScan id st =
      { db := updateFirst (fun item => item.checkedOutBy == some id)
          (fun item =>
            { item with
              status := "Available",
              checkedOutBy := none,
              checkedOutByName := none }) st.db,
        selectedItemId := none,
        message := "Thank you, " ++ mockUserName id ++ ". Item \"" ++
          itR.name ++ "\" has been returned.",
        msgType := .success,
        renders := 1,
        log := [ { itemId := itR.id, itemName := itR.name, action := "Returned",
                   userId := id, userName := mockUserName id } ] } := by
  simp [processScan, hid, hf]

theorem processScan_checkout_eq (id selId : String) (st : ScanState) (itc : Item)
    (hid : id ≠ "")
    (hf1 : st.db.find? (fun item => item.checkedOutBy == some id) = none)
    (hsel : st.selectedItemId = some selId)
    (hf2 : st.db.find? (fun item => item.id == selId) = some itc)
    (hav : itc.status = "Available") :
    processScan id st =
      { db := updateFirst (fun item => item.id == selId)
          (fun item =>
            { item with
              status := "Checked Out",
              checkedOutBy := some id,
              checkedOutByName := some (mockUserName id) }) st.db,
        selectedItemId := none,
        message := "Thank you, " ++ mockUserName id ++ ". You have checked out \"" ++
          itc.name ++ "\".",
        msgType := .success,
        renders := 1,
        log := [ { itemId := itc.id, itemName := itc.name, action := "Checked Out",
                   userId := id, userName := mockUserName id } ] } := by
  simp [processScan, hid, hf1, hsel, hf2, hav]

theorem processScan_noSelection_eq (id : String) (st : ScanState)
    (hid : id ≠ "")
    (hf1 : st.db.find? (fun item => item.checkedOutBy == some id) = none)
    (hsel : st.selectedItemId = none) :
    processScan id st =
      { db := st.db,
        selectedItemId := none,
        message := "Please select an available item *before* scanning your ID to check out.",
        msgType := .error,
        renders := 1,
        log := [] } := by
  simp [processScan, hid, hf1, hsel]

theorem processScan_unavailable_eq (id selId : String) (st : ScanState) (itc : Item)
    (hid : id ≠ "")
    (hf1 : st.db.find? (fun item => item.checkedOutBy == some id) = none)
    (hsel : st.selectedItemId = some selId)
    (hf2 : st.db.find? (fun item => item.id == selId) = some itc)
    (hav : itc.status ≠ "Available") :
    processScan id st =
      { db := st.db,
        selectedItemId := none,
        message := "That item is no longer available. Please select another.",
        msgType := .error,
        renders := 1,
        log := [] } := by
  simp [processScan, hid, hf1, hsel, hf2, hav]

theorem processScan_selMissing_eq (id selId : String) (st : ScanState)
    (hid : id ≠ "")
    (hf1 : st.db.find? (fun item => item.checkedOutBy == some id) = none)
    (hsel : st.selectedItemId = some selId)
    (hf2 : st.db.find? (fun item => item.id == selId) = none) :
    processScan id st =
      { db := st.db,
        selectedItemId := none,
        message := "That item is no longer available. Please select another.",
        msgType := .error,
        renders := 1,
        log := [] } := by
  simp [processScan, hid, hf1, hsel, hf2]

/-! ### Claims about the transaction resolver -/

/-- C2 (amended to non-empty identifiers): for every non-empty scanned
identifier and every inventory state, if some item's `checkedOutBy` equals
the scanned identifier, the call is a Return regardless of the selection:
the result does not depend on the selection at all, it reports success,
and the first matching item's status becomes "Available" with both holder
fields cleared. -/
theorem c2_return_precedence (id : String) (db : List Item) (sel : Option String)
    (hne : id ≠ "") (hm : ∃ it ∈ db, it.checkedOutBy = some id) :
    processScan id { db := db, selectedItemId := sel } =
      processScan id { db := db, selectedItemId := none } ∧
    (processScan id { db := db, selectedItemId := sel }).msgType = MsgType.success ∧
    ∃ (i : Nat) (it : Item),
      db[i]? = some it ∧ it.checkedOutBy = some id ∧
      (processScan id { db := db, selectedItemId := sel }).db[i]? =
        some { it with
               status := "Available",
               checkedOutBy := none,
               checkedOutByName := none } := by
  have hsome : (db.find? (fun item => item.checkedOutBy == some id)).isSome := by
    rw [List.find?_isSome]
    rcases hm with ⟨it, hmem, hcb⟩
    exact ⟨it, hmem, by simp [hcb]⟩
  rcases Option.isSome_iff_exists.mp hsome with ⟨itR, hf⟩
  have heq1 := processScan_return_eq id { db := db, selectedItemId := sel } itR hne hf
  have heq2 := processScan_return_eq id { db := db, selectedItemId := none } itR hne hf
  refine ⟨heq1.trans heq2.symm, by rw [heq1], ?_⟩
  rcases updateFirst_getElem (fun item => item.checkedOutBy == some id)
      (fun item =>
        { item with
          status := "Available",
          checkedOutBy := none,
          checkedOutByName := none }) db itR hf with ⟨i, h1, _, h3, _⟩
  have hcb : itR.checkedOutBy = some id := by
    have := List.find?_some hf
    exact beq_iff_eq.mp this
  exact ⟨i, itR, h1, hcb, by rw [heq1]; exact h3⟩

/-- Witness for C2 at the initial inventory: scanning Jane Doe's id
"987654321" with laptop1 selected still performs the return of laptop2. -/
theorem c2_return_precedence_witness :
    (processScan "987654321" { db := mockItemDB, selectedItemId := some "laptop1" }).msgType =
      MsgType.success :=
  (c2_return_precedence "987654321" mockItemDB (some "laptop1") (by decide)
    (by decide)).2.1

/-- C2 counterexample to the unrestricted claim: with the (unreachable but
syntactically allowed) inventory state holding an item whose holder userId
is the empty string, scanning the empty identifier matches that holder yet
the resolver rejects the scan and mutates nothing, instead of returning
the item. -/
theorem c2_counterexample :
    (∃ it ∈ [ghostItem], it.checkedOutBy = some "") ∧
    ghostItem.status = "Checked Out" ∧
    (processScan "" { db := [ghostItem], selectedItemId := none }).db = [ghostItem] ∧
    (processScan "" { db := [ghostItem], selectedItemId := none }).msgType = MsgType.error := by
  refine ⟨⟨ghostItem, ?_, rfl⟩, rfl, rfl, rfl⟩
  exact List.mem_singleton_self ghostItem

/-- C3: for a non-empty scanned identifier matching no item's holder, with
a selection whose item is currently "Available", the resolver checks that
item out: its status becomes "Checked Out", its holder userId becomes the
scanned identifier and its holder userName the derived fixed-format label
built from the last four characters of the identifier; success is reported
with a message naming the item; every other item is untouched. -/
theorem c3_checkout (id selId : String) (db : List Item) (itc : Item)
    (hne : id ≠ "")
    (hnr : db.find? (fun x => x.checkedOutBy == some id) = none)
    (hsel : db.find? (fun x => x.id == selId) = some itc)
    (hav : itc.status = "Available") :
    (processScan id { db := db, selectedItemId := some selId }).msgType = MsgType.success ∧
    (processScan id { db := db, selectedItemId := some selId }).message =
      "Thank you, " ++ mockUserName id ++ ". You have checked out \"" ++ itc.name ++ "\"." ∧
    mockUserName id = "User (" ++ sliceLast4 id ++ ")" ∧
    ∃ i : Nat, db[i]? = some itc ∧
      (processScan id { db := db, selectedItemId := some selId }).db[i]? =
        some { itc with
               status := "Checked Out",
               checkedOutBy := some id,
               checkedOutByName := some (mockUserName id) } ∧
      ∀ j : Nat, j ≠ i →
        (processScan id { db := db, selectedItemId := some selId }).db[j]? = db[j]? := by
  have heq := processScan_checkout_eq id selId { db := db, selectedItemId := some selId }
    itc hne hnr rfl hsel hav
  refine ⟨by rw [heq], by rw [heq], rfl, ?_⟩
  rcases updateFirst_getElem (fun x => x.id == selId)
      (fun item =>
        { item with
          status := "Checked Out",
          checkedOutBy := some id,
          checkedOutByName := some (mockUserName id) }) db itc hsel with ⟨i, h1, _, h3, h4⟩
  exact ⟨i, h1, by rw [heq]; exact h3, fun j hj => by rw [heq]; exact h4 j hj⟩

/-- Witness for C3: scenario B of the spec at the initial inventory. -/
theorem c3_checkout_witness :
    (processScan "111" { db := mockItemDB, selectedItemId := some "laptop1" }).msgType =
      MsgType.success :=
  (c3_checkout "111" "laptop1" mockItemDB
    { id := "laptop1", name := "Loaner Laptop 1", status := "Available",
      checkedOutBy := none, checkedOutByName := none }
    (by decide) (by decide) (by decide) (by decide)).1

/-- C4: for a non-empty scanned identifier matching no item's holder,
a call with no selection reports the select-an-item error and a call whose
selected item exists but is not "Available" reports the no-longer-available
error; in both cases the message kind is error and the item database is
exactly unchanged. -/
theorem c4_rejections (id : String) (db : List Item)
    (hne : id ≠ "")
    (hnr : db.find? (fun x => x.checkedOutBy == some id) = none) :
    ((processScan id { db := db, selectedItemId := none }).message =
        "Please select an available item *before* scanning your ID to check out." ∧
      (processScan id { db := db, selectedItemId := none }).msgType = MsgType.error ∧
      (processScan id { db := db, selectedItemId := none }).db = db) ∧
    (∀ (selId : String) (itc : Item),
      db.find? (fun x => x.id == selId) = some itc →
      itc.status ≠ "Available" →
      (processScan id { db := db, selectedItemId := some selId }).message =
          "That item is no longer available. Please select another." ∧
        (processScan id { db := db, selectedItemId := some selId }).msgType = MsgType.error ∧
        (processScan id { db := db, selectedItemId := some selId }).db = db) := by
  constructor
  · have heq := processScan_noSelection_eq id { db := db, selectedItemId := none } hne hnr rfl
    exact ⟨by rw [heq], by rw [heq], by rw [heq]⟩
  · intro selId itc hf2 hna
    have heq := processScan_unavailable_eq id selId { db := db, selectedItemId := some selId }
      itc hne hnr rfl hf2 hna
    exact ⟨by rw [heq], by rw [heq], by rw [heq]⟩

/-- Witness for C4: scenario A (no selection) and scenario D (stale
selection of the checked-out laptop2) at the initial inventory. -/
theorem c4_rejections_witness :
    (processScan "111" { db := mockItemDB, selectedItemId := none }).msgType = MsgType.error ∧
    (processScan "111" { db := mockItemDB, selectedItemId := some "laptop2" }).db = mockItemDB := by
  have h := c4_rejections "111" mockItemDB (by decide) (by decide)
  refine ⟨h.1.2.1, ?_⟩
  exact (h.2 "laptop2"
    { id := "laptop2", name := "Loaner Laptop 2", status := "Checked Out",
      checkedOutBy := some "987654321", checkedOutByName := some "Jane Doe" }
    (by decide) (by decide)).2.2

/-- C5 (amended to non-empty identifiers): every resolver call on a
non-empty identifier ends with the selection cleared and exactly one
inventory re-render, whatever the outcome; a call on the empty identifier
instead returns before the cleanup block, leaving the selection and the
render count untouched. -/
theorem c5_cleanup (id : String) (st : ScanState) (hne : id ≠ "") :
    (processScan id st).selectedItemId = none ∧ (processScan id st).renders = 1 := by
  cases hf1 : st.db.find? (fun item => item.checkedOutBy == some id) with
  | some itR =>
    have heq := processScan_return_eq id st itR hne hf1
    exact ⟨by rw [heq], by rw [heq]⟩
  | none =>
    cases hsel : st.selectedItemId with
    | none =>
      have heq := processScan_noSelection_eq id st hne hf1 hsel
      exact ⟨by rw [heq], by rw [heq]⟩
    | some selId =>
      cases hf2 : st.db.find? (fun item => item.id == selId) with
      | none =>
        have heq := processScan_selMissing_eq id selId st hne hf1 hsel hf2
        exact ⟨by rw [heq], by rw [heq]⟩
      | some itc =>
        by_cases hav : itc.status = "Available"
        · have heq := processScan_checkout_eq id selId st itc hne hf1 hsel hf2 hav
          exact ⟨by rw [heq], by rw [heq]⟩
        · have heq := processScan_unavailable_eq id selId st itc hne hf1 hsel hf2 hav
          exact ⟨by rw [heq], by rw [heq]⟩

/-- Witness for C5 at a rejected scan on the initial inventory. -/
theorem c5_cleanup_witness :
    (processScan "111" { db := mockItemDB, selectedItemId := none }).selectedItemId = none ∧
    (processScan "111" { db := mockItemDB, selectedItemId := none }).renders = 1 :=
  c5_cleanup "111" { db := mockItemDB, selectedItemId := none } (by decide)

/-- C5 counterexample to the claim as stated: on the empty identifier the
call keeps the selection set and performs no re-render. -/
theorem c5_counterexample :
    ¬ ((processScan "" { db := mockItemDB, selectedItemId := some "laptop1" }).selectedItemId =
        none ∧
       (processScan "" { db := mockItemDB, selectedItemId := some "laptop1" }).renders = 1) := by
  intro h
  exact absurd h.1 (by decide)

/-- C10: a resolver call transitions at most one item: when an item's
holder matches the scanned identifier, only the first match in list order
is cleared; every other position of the database, in particular every
later matching item, is exactly unchanged. -/
theorem c10_single_update (id : String) (db : List Item) (sel : Option String) (it : Item)
    (hne : id ≠ "")
    (hf : db.find? (fun x => x.checkedOutBy == some id) = some it) :
    ∃ i : Nat, db[i]? = some it ∧
      (∀ (j : Nat) (y : Item), j < i → db[j]? = some y → y.checkedOutBy ≠ some id) ∧
      (processScan id { db := db, selectedItemId := sel }).db[i]? =
        some { it with
               status := "Available",
               checkedOutBy := none,
               checkedOutByName := none } ∧
      ∀ j : Nat, j ≠ i → (processScan id { db := db, selectedItemId := sel }).db[j]? = db[j]? := by
  have heq := processScan_return_eq id { db := db, selectedItemId := sel } it hne hf
  rcases updateFirst_getElem (fun x => x.checkedOutBy == some id)
      (fun item =>
        { item with
          status := "Available",
          checkedOutBy := none,
          checkedOutByName := none }) db it hf with ⟨i, h1, h2, h3, h4⟩
  refine ⟨i, h1, ?_, by rw [heq]; exact h3, fun j hj => by rw [heq]; exact h4 j hj⟩
  intro j y hji hy
  have := h2 j y hji hy
  simpa using this

/-! ### Claims about the scan decoder -/

theorem length_foldl_append (l : List String) (a : String)
    (h : ∀ c ∈ l, c.length = 1) :
    (l.foldl (fun a c => a ++ c) a).length = a.length + l.length := by
  induction l generalizing a with
  | nil => simp
  | cons c cs ih =>
    simp only [List.foldl_cons, List.length_cons]
    rw [ih (a ++ c) (fun x hx => h x (List.mem_cons_of_mem _ hx))]
    rw [String.length_append]
    have hc : c.length = 1 := h c (List.mem_cons_self c cs)
    omega

theorem decodeRun_printable (chars : List String) (b : String) (em : List String)
    (h : ∀ c ∈ chars, c.length = 1) :
    decodeRun { scanBuffer := b, emitted := em }
        (chars.map (fun c => DecoderEvent.keydown { key := c, ctrlKey := false, metaKey := false })) =
      { scanBuffer := chars.foldl (fun a c => a ++ c) b, emitted := em } := by
  induction chars generalizing b with
  | nil => rfl
  | cons c cs ih =>
    have hc : c.length = 1 := h c (List.mem_cons_self c cs)
    have hce : c ≠ "Enter" := by
      intro hcon
      rw [hcon] at hc
      exact absurd hc (by decide)
    simp only [List.map_cons, decodeRun, List.foldl_cons]
    have hstep :
        decodeStep (DecoderEvent.keydown { key := c, ctrlKey := false, metaKey := false })
          { scanBuffer := b, emitted := em } = { scanBuffer := b ++ c, emitted := em } := by
      simp [decodeStep, handleGlobalKeyDown, hce, hc]
    rw [hstep]
    exact ih (b ++ c) (fun x hx => h x (List.mem_cons_of_mem _ hx))

/-- C6: a burst of printable single-character keystrokes with no Ctrl/Meta
chord, delivered with no intervening watchdog firing and terminated by
Enter, makes the decoder emit exactly one scan whose identifier is the
concatenation of the keys in arrival order, leaving the buffer empty; when
no character preceded the Enter, nothing is emitted and the state is
unchanged. -/
theorem c6_burst_emission (chars : List String) (em : List String)
    (h : ∀ c ∈ chars, c.length = 1) :
    decodeRun { scanBuffer := "", emitted := em }
        (chars.map (fun c => DecoderEvent.keydown { key := c, ctrlKey := false, metaKey := false }) ++
          [DecoderEvent.keydown { key := "Enter", ctrlKey := false, metaKey := false }]) =
      (if chars.isEmpty then { scanBuffer := "", emitted := em }
       else { scanBuffer := "", emitted := em ++ [concatKeys chars] } : DecoderState) := by
  have hsplit :
      decodeRun { scanBuffer := "", emitted := em }
        (chars.map (fun c => DecoderEvent.keydown { key := c, ctrlKey := false, metaKey := false }) ++
          [DecoderEvent.keydown { key := "Enter", ctrlKey := false, metaKey := false }]) =
      decodeRun
        (decodeRun { scanBuffer := "", emitted := em }
          (chars.map (fun c => DecoderEvent.keydown { key := c, ctrlKey := false, metaKey := false })))
        [DecoderEvent.keydown { key := "Enter", ctrlKey := false, metaKey := false }] := by
    simp [decodeRun, List.foldl_append]
  rw [hsplit, decodeRun_printable chars "" em h]
  cases chars with
  | nil => rfl
  | cons c cs =>
    have hlen : (concatKeys (c :: cs)).length = (c :: cs).length := by
      have hfold := length_foldl_append (c :: cs) "" h
      simpa [concatKeys] using hfold
    have hpos : 0 < (concatKeys (c :: cs)).length := by
      rw [hlen]
      simp
    simp only [List.isEmpty_cons, if_neg (by simp : ¬(false = true))]
    show decodeRun { scanBuffer := concatKeys (c :: cs), emitted := em } _ = _
    simp [decodeRun, decodeStep, handleGlobalKeyDown, hpos]

/-- Witness for C6 at the keys "a", "b", "c". -/
theorem c6_burst_emission_witness :
    decodeRun { scanBuffer := "", emitted := [] }
        [ DecoderEvent.keydown { key := "a", ctrlKey := false, metaKey := false },
          DecoderEvent.keydown { key := "b", ctrlKey := false, metaKey := false },
          DecoderEvent.keydown { key := "c", ctrlKey := false, metaKey := false },
          DecoderEvent.keydown { key := "Enter", ctrlKey := false, metaKey := false } ] =
      { scanBuffer := "", emitted := ["abc"] } := by
  have h := c6_burst_emission ["a", "b", "c"] [] (by decide)
  simpa using h

/-- C7: when the inactivity watchdog fires, the buffer is discarded and
nothing is emitted; every later behaviour of the decoder is exactly what it
would be from an empty buffer, so no scan carrying the discarded buffer's
characters can ever be emitted, and the next accepted keystroke starts
accumulating from the empty buffer. -/
theorem c7_watchdog_discard (b : String) (em : List String) (evs : List DecoderEvent) :
    decodeStep DecoderEvent.timeout { scanBuffer := b, emitted := em } =
      { scanBuffer := "", emitted := em } ∧
    decodeRun (decodeStep DecoderEvent.timeout { scanBuffer := b, emitted := em }) evs =
      decodeRun { scanBuffer := "", emitted := em } evs ∧
    (∀ c : String, c.length = 1 → c ≠ "Enter" →
      decodeStep (DecoderEvent.keydown { key := c, ctrlKey := false, metaKey := false })
          (decodeStep DecoderEvent.timeout { scanBuffer := b, emitted := em }) =
        { scanBuffer := c, emitted := em }) := by
  refine ⟨rfl, rfl, ?_⟩
  intro c hc hce
  simp [decodeStep, handleGlobalKeyDown, scanTimerFire, hce, hc]

/-- Witness for C7: a pending buffer "abc" is discarded by the watchdog and
the next keystroke "x" starts from the empty buffer. -/
theorem c7_watchdog_discard_witness :
    decodeStep (DecoderEvent.keydown { key := "x", ctrlKey := false, metaKey := false })
        (decodeStep DecoderEvent.timeout { scanBuffer := "abc", emitted := [] }) =
      { scanBuffer := "x", emitted := [] } :=
  (c7_watchdog_discard "abc" [] []).2.2 "x" (by decide) (by decide)

/-! ### Status evolution along a trace of resolver calls -/

theorem processScan_log_actions (id : String) (st : ScanState) :
    ∀ l ∈ (processScan id st).log, l.action = "Returned" ∨ l.action = "Checked Out" := by
  intro l hl
  by_cases hid : id = ""
  · subst hid
    rw [processScan_empty_eq] at hl
    simp at hl
  · cases hf1 : st.db.find? (fun item => item.checkedOutBy == some id) with
    | some itR =>
      rw [processScan_return_eq id st itR hid hf1] at hl
      simp only [List.mem_singleton] at hl
      subst hl
      exact Or.inl rfl
    | none =>
      cases hsel : st.selectedItemId with
      | none =>
        rw [processScan_noSelection_eq id st hid hf1 hsel] at hl
        simp at hl
      | some selId =>
        cases hf2 : st.db.find? (fun item => item.id == selId) with
        | none =>
          rw [processScan_selMissing_eq id selId st hid hf1 hsel hf2] at hl
          simp at hl
        | some itc =>
          by_cases hav : itc.status = "Available"
          · rw [processScan_checkout_eq id selId st itc hid hf1 hsel hf2 hav] at hl
            simp only [List.mem_singleton] at hl
            subst hl
            exact Or.inr rfl
          · rw [processScan_unavailable_eq id selId st itc hid hf1 hsel hf2 hav] at hl
            simp at hl

/-- A step whose log does not mention item `x` leaves the status of `x`
unchanged. -/
theorem stepStatus_preserved (db : List Item) (id : String) (sel : Option String) (x : String)
    (h : ∀ l ∈ (processScan id { db := db, selectedItemId := sel }).log, l.itemId ≠ x) :
    statusOf (processScan id { db := db, selectedItemId := sel }).db x = statusOf db x := by
  by_cases hid : id = ""
  · subst hid
    rw [processScan_empty_eq]
  · cases hf1 : db.find? (fun item => item.checkedOutBy == some id) with
    | some itR =>
      have heq := processScan_return_eq id { db := db, selectedItemId := sel } itR hid hf1
      have hdb : (processScan id { db := db, selectedItemId := sel }).db =
          updateFirst (fun item => item.checkedOutBy == some id)
            (fun item =>
              { item with
                status := "Available",
                checkedOutBy := none,
                checkedOutByName := none }) db := by
        rw [heq]
      have hlog : (processScan id { db := db, selectedItemId := sel }).log =
          [ { itemId := itR.id,
              itemName := itR.name,
              action := "Returned",
              userId := id,
              userName := mockUserName id } ] := by
        rw [heq]
      rw [hlog] at h
      have hnx : itR.id ≠ x := by
        have hmem := h
          { itemId := itR.id,
            itemName := itR.name,
            action := "Returned",
            userId := id,
            userName := mockUserName id } (List.mem_singleton_self _)
        simpa using hmem
      rw [hdb]
      apply statusOf_updateFirst_ne
      · intro y
        rfl
      · intro it hit
        rw [hf1] at hit
        injection hit with hit
        rw [← hit]
        exact hnx
    | none =>
      cases sel with
      | none =>
        rw [processScan_noSelection_eq id { db := db, selectedItemId := none } hid hf1 rfl]
      | some selId =>
        cases hf2 : db.find? (fun item => item.id == selId) with
        | none =>
          rw [processScan_selMissing_eq id selId { db := db, selectedItemId := some selId }
            hid hf1 rfl hf2]
        | some itc =>
          by_cases hav : itc.status = "Available"
          · have heq := processScan_checkout_eq id selId
              { db := db, selectedItemId := some selId } itc hid hf1 rfl hf2 hav
            have hdb : (processScan id { db := db, selectedItemId := some selId }).db =
                updateFirst (fun item => item.id == selId)
                  (fun item =>
                    { item with
                      status := "Checked Out",
                      checkedOutBy := some id,
                      checkedOutByName := some (mockUserName id) }) db := by
              rw [heq]
            have hlog : (processScan id { db := db, selectedItemId := some selId }).log =
                [ { itemId := itc.id,
                    itemName := itc.name,
                    action := "Checked Out",
                    userId := id,
                    userName := mockUserName id } ] := by
              rw [heq]
            rw [hlog] at h
            have hnx : itc.id ≠ x := by
              have hmem := h
                { itemId := itc.id,
                  itemName := itc.name,
                  action := "Checked Out",
                  userId := id,
                  userName := mockUserName id } (List.mem_singleton_self _)
              simpa using hmem
            rw [hdb]
            apply statusOf_updateFirst_ne
            · intro y
              rfl
            · intro it hit
              rw [hf2] at hit
              injection hit with hit
              rw [← hit]
              exact hnx
          · rw [processScan_unavailable_eq id selId { db := db, selectedItemId := some selId }
              itc hid hf1 rfl hf2 hav]

/-- A step that logs a checkout of item `x` found `x` "Available" before
the call and leaves it "Checked Out" after the call. -/
theorem stepLog_checkout_status (db : List Item) (id : String) (sel : Option String) (x : String)
    (h : ∃ l ∈ (processScan id { db := db, selectedItemId := sel }).log,
          l.action = "Checked Out" ∧ l.itemId = x) :
    statusOf db x = some "Available" ∧
    statusOf (processScan id { db := db, selectedItemId := sel }).db x = some "Checked Out" := by
  by_cases hid : id = ""
  · subst hid
    rw [processScan_empty_eq] at h
    simp at h
  · cases hf1 : db.find? (fun item => item.checkedOutBy == some id) with
    | some itR =>
      have hlog : (processScan id { db := db, selectedItemId := sel }).log =
          [ { itemId := itR.id,
              itemName := itR.name,
              action := "Returned",
              userId := id,
              userName := mockUserName id } ] := by
        rw [processScan_return_eq id { db := db, selectedItemId := sel } itR hid hf1]
      rw [hlog] at h
      simp at h
    | none =>
      cases sel with
      | none =>
        rw [processScan_noSelection_eq id { db := db, selectedItemId := none } hid hf1 rfl] at h
        simp at h
      | some selId =>
        cases hf2 : db.find? (fun item => item.id == selId) with
        | none =>
          rw [processScan_selMissing_eq id selId { db := db, selectedItemId := some selId }
            hid hf1 rfl hf2] at h
          simp at h
        | some itc =>
          by_cases hav : itc.status = "Available"
          · have heq := processScan_checkout_eq id selId
              { db := db, selectedItemId := some selId } itc hid hf1 rfl hf2 hav
            have hdb : (processScan id { db := db, selectedItemId := some selId }).db =
                updateFirst (fun item => item.id == selId)
                  (fun item =>
                    { item with
                      status := "Checked Out",
                      checkedOutBy := some id,
                      checkedOutByName := some (mockUserName id) }) db := by
              rw [heq]
            have hlog : (processScan id { db := db, selectedItemId := some selId }).log =
                [ { itemId := itc.id,
                    itemName := itc.name,
                    action := "Checked Out",
                    userId := id,
                    userName := mockUserName id } ] := by
              rw [heq]
            rw [hlog] at h
            simp only [List.mem_singleton] at h
            rcases h with ⟨l, hleq, _, hx⟩
            subst hleq
            have hx' : itc.id = x := hx
            have hbeq := List.find?_some hf2
            have hsel' : itc.id = selId := beq_iff_eq.mp hbeq
            have hxs : x = selId := by
              rw [← hx', hsel']
            constructor
            · rw [statusOf, hxs, hf2]
              simp [hav]
            · have hpg : ((({ itc with
                    status := "Checked Out",
                    checkedOutBy := some id,
                    checkedOutByName := some (mockUserName id) } : Item).id == selId)) = true := by
                show (itc.id == selId) = true
                simp [hsel']
              have hfind := find?_updateFirst (fun it => it.id == selId)
                (fun item =>
                  { item with
                    status := "Checked Out",
                    checkedOutBy := some id,
                    checkedOutByName := some (mockUserName id) }) db itc hf2 hpg
              rw [hdb, statusOf, hxs, hfind]
              simp
          · rw [processScan_unavailable_eq id selId { db := db, selectedItemId := some selId }
              itc hid hf1 rfl hf2 hav] at h
            simp at h

theorem callTx_some (evs : List (String × Option String)) (n : Nat)
    (e : String × Option String) (he : evs[n]? = some e) :
    callTx evs n = (processScan e.1 { db := dbAt evs n, selectedItemId := e.2 }).log := by
  unfold callTx
  rw [he]

theorem callTx_none (evs : List (String × Option String)) (n : Nat)
    (he : evs[n]? = none) :
    callTx evs n = [] := by
  unfold callTx
  rw [he]

theorem dbAt_succ_some (evs : List (String × Option String)) (n : Nat)
    (e : String × Option String) (he : evs[n]? = some e) :
    dbAt evs (n + 1) = scanStep (dbAt evs n) e := by
  rw [dbAt_succ, he]

theorem dbAt_succ_none (evs : List (String × Option String)) (n : Nat)
    (he : evs[n]? = none) :
    dbAt evs (n + 1) = dbAt evs n := by
  rw [dbAt_succ, he]

theorem checksOut_status (evs : List (String × Option String)) (n : Nat) (x : String)
    (h : checksOut evs n x = true) :
    statusOf (dbAt evs n) x = some "Available" ∧
    statusOf (dbAt evs (n + 1)) x = some "Checked Out" := by
  unfold checksOut at h
  cases he : evs[n]? with
  | none =>
    rw [callTx_none evs n he] at h
    simp at h
  | some e =>
    rw [callTx_some evs n e he, List.any_eq_true] at h
    rcases h with ⟨l, hl, hcond⟩
    rw [Bool.and_eq_true] at hcond
    have hact : l.action = "Checked Out" := beq_iff_eq.mp hcond.1
    have hx : l.itemId = x := beq_iff_eq.mp hcond.2
    have hmain := stepLog_checkout_status (dbAt evs n) e.1 e.2 x ⟨l, hl, hact, hx⟩
    refine ⟨hmain.1, ?_⟩
    rw [dbAt_succ_some evs n e he]
    exact hmain.2

theorem returnsItem_of_log (evs : List (String × Option String)) (n : Nat) (x : String)
    (e : String × Option String) (he : evs[n]? = some e) (l : LogEntry)
    (hl : l ∈ (processScan e.1 { db := dbAt evs n, selectedItemId := e.2 }).log)
    (hact : l.action = "Returned") (hx : l.itemId = x) :
    returnsItem evs n x = true := by
  unfold returnsItem
  rw [callTx_some evs n e he, List.any_eq_true]
  exact ⟨l, hl, by simp [hact, hx]⟩

theorem status_persists (evs : List (String × Option String)) (x : String) (m n : Nat)
    (hmn : m ≤ n)
    (hco : statusOf (dbAt evs m) x = some "Checked Out")
    (hnr : ∀ k, m ≤ k → k < n → ¬ returnsItem evs k x = true) :
    statusOf (dbAt evs n) x = some "Checked Out" := by
  induction n, hmn using Nat.le_induction with
  | base => exact hco
  | succ n hmn ih =>
    have hstat := ih (fun k hk1 hk2 => hnr k hk1 (by omega))
    cases he : evs[n]? with
    | none =>
      rw [dbAt_succ_none evs n he]
      exact hstat
    | some e =>
      rw [dbAt_succ_some evs n e he]
      by_cases hlog : ∀ l ∈ (processScan e.1 { db := dbAt evs n, selectedItemId := e.2 }).log,
          l.itemId ≠ x
      · have hpres := stepStatus_preserved (dbAt evs n) e.1 e.2 x hlog
        rw [show statusOf (scanStep (dbAt evs n) e) x =
            statusOf (processScan e.1 { db := dbAt evs n, selectedItemId := e.2 }).db x from rfl]
        rw [hpres]
        exact hstat
      · push_neg at hlog
        rcases hlog with ⟨l, hl, hlx⟩
        rcases processScan_log_actions e.1 { db := dbAt evs n, selectedItemId := e.2 } l hl with
          hret | hchk
        · exact absurd (returnsItem_of_log evs n x e he l hl hret hlx)
            (hnr n (by omega) (by omega))
        · have hco2 := (stepLog_checkout_status (dbAt evs n) e.1 e.2 x ⟨l, hl, hchk, hlx⟩).1
          rw [hstat] at hco2
          exact absurd hco2 (by decide)

/-- C8: in a sequence of resolver calls from the initial inventory, two
calls that both perform a successful checkout of the same item must have a
call strictly between them that performs a return of that item. -/
theorem c8_mutual_exclusion (evs : List (String × Option String)) (i j : Nat) (x : String)
    (hij : i < j) (hi : checksOut evs i x = true) (hj : checksOut evs j x = true) :
    ∃ k, i < k ∧ k < j ∧ returnsItem evs k x = true := by
  by_contra hcon
  push_neg at hcon
  have h1 := (checksOut_status evs i x hi).2
  have h2 := (checksOut_status evs j x hj).1
  have hpers := status_persists evs x (i + 1) j (by omega) h1
    (fun k hk1 hk2 => hcon k (by omega) hk2)
  rw [hpers] at h2
  exact absurd h2 (by decide)

/-- Witness for C8: checkout of laptop1 by "111", return by "111", then
checkout of laptop1 by "222"; the theorem produces the intervening return. -/
theorem c8_mutual_exclusion_witness :
    ∃ k, 0 < k ∧ k < 2 ∧
      returnsItem [("111", some "laptop1"), ("111", none), ("222", some "laptop1")]
        k "laptop1" = true :=
  c8_mutual_exclusion [("111", some "laptop1"), ("111", none), ("222", some "laptop1")]
    0 2 "laptop1" (by decide) (by decide) (by decide)

theorem processScan_success_log (id : String) (st : ScanState) :
    ((processScan id st).msgType = MsgType.success ↔ (processScan id st).log.length = 1) ∧
    ((processScan id st).msgType = MsgType.error → (processScan id st).log = []) := by
  by_cases hid : id = ""
  · subst hid
    rw [processScan_empty_eq]
    simp
  · cases hf1 : st.db.find? (fun item => item.checkedOutBy == some id) with
    | some itR =>
      rw [processScan_return_eq id st itR hid hf1]
      simp
    | none =>
      cases hsel : st.selectedItemId with
      | none =>
        rw [processScan_noSelection_eq id st hid hf1 hsel]
        simp
      | some selId =>
        cases hf2 : st.db.find? (fun item => item.id == selId) with
        | none =>
          rw [processScan_selMissing_eq id selId st hid hf1 hsel hf2]
          simp
        | some itc =>
          by_cases hav : itc.status = "Available"
          · rw [processScan_checkout_eq id selId st itc hid hf1 hsel hf2 hav]
            simp
          · rw [processScan_unavailable_eq id selId st itc hid hf1 hsel hf2 hav]
            simp

theorem runLogAux_log (evs : List (String × Option String)) (db : List Item)
    (log : List LogEntry) :
    ∃ rest, (evs.foldl
      (fun acc ev =>
        ((processScan ev.1 { db := acc.1, selectedItemId := ev.2 }).db,
          acc.2 ++ (processScan ev.1 { db := acc.1, selectedItemId := ev.2 }).log))
      (db, log)).2 = log ++ rest := by
  induction evs generalizing db log with
  | nil =>
    exact ⟨[], by simp⟩
  | cons e es ih =>
    simp only [List.foldl_cons]
    rcases ih ((processScan e.1 { db := db, selectedItemId := e.2 }).db)
      (log ++ (processScan e.1 { db := db, selectedItemId := e.2 }).log) with ⟨rest, hrest⟩
    exact ⟨(processScan e.1 { db := db, selectedItemId := e.2 }).log ++ rest,
      by rw [hrest, List.append_assoc]⟩

theorem runLog_append (evs evs' : List (String × Option String)) :
    ∃ rest, (runLog (evs ++ evs')).2 = (runLog evs).2 ++ rest := by
  unfold runLog
  rw [List.foldl_append]
  exact runLogAux_log evs' _ _

/-- C9: a resolver call reports success exactly when it appends one
LogEntry, a rejected call (error) appends none, and the cumulative log of a
trace only ever grows by appending at the end (entries are never mutated or
deleted). -/
theorem c9_transaction_log (id : String) (st : ScanState)
    (evs evs' : List (String × Option String)) :
    ((processScan id st).msgType = MsgType.success ↔ (processScan id st).log.length = 1) ∧
    ((processScan id st).msgType = MsgType.error → (processScan id st).log = []) ∧
    (∃ rest, (runLog (evs ++ evs')).2 = (runLog evs).2 ++ rest) :=
  ⟨(processScan_success_log id st).1, (processScan_success_log id st).2,
    runLog_append evs evs'⟩

/-- Witness for C9: the return of laptop2 at the initial inventory appends
exactly one log entry. -/
theorem c9_transaction_log_witness :
    (processScan "987654321" { db := mockItemDB, selectedItemId := none }).log.length = 1 :=
  (c9_transaction_log "987654321" { db := mockItemDB, selectedItemId := none } [] []).1.mp
    (by decide)

/-- Witness for C10: returning Jane Doe's badge at the initial inventory
touches only laptop2's position. -/
theorem c10_single_update_witness :
    ∃ i : Nat,
      mockItemDB[i]? =
        some { id := "laptop2", name := "Loaner Laptop 2", status := "Checked Out",
               checkedOutBy := some "987654321", checkedOutByName := some "Jane Doe" } ∧
      (∀ (j : Nat) (y : Item), j < i → mockItemDB[j]? = some y →
        y.checkedOutBy ≠ some "987654321") ∧
      (processScan "987654321" { db := mockItemDB, selectedItemId := none }).db[i]? =
        some { id := "laptop2", name := "Loaner Laptop 2", status := "Available",
               checkedOutBy := none, checkedOutByName := none } ∧
      ∀ j : Nat, j ≠ i →
        (processScan "987654321" { db := mockItemDB, selectedItemId := none }).db[j]? =
          mockItemDB[j]? :=
  c10_single_update "987654321" mockItemDB none
    { id := "laptop2", name := "Loaner Laptop 2", status := "Checked Out",
      checkedOutBy := some "987654321", checkedOutByName := some "Jane Doe" }
    (by decide) (by decide)
